import Mathlib

/-!
Shallow embedding of the store-and-forward SMTP relay
(`src/smtp_relay/app.py`): the `StoreHandler.handle_DATA` intake
pipeline, identifier probing, MX resolution and ordering, relay-vs-MX
delivery and envelope-sender derivation.  External collaborators
(the DNS resolver, the SMTP network, the e-mail header parser and the
environment) are modelled as explicit oracle parameters; the Python
control flow itself is translated function by function.
-/

set_option maxHeartbeats 1000000

namespace SmtpRelay

/-- Message content: raw bytes, as in `envelope.content`. -/
abbrev Bytes := List Nat

/-- Truthiness of an optional environment string, as Python evaluates
`if os.getenv(...)`: unset (`None`) and the empty string are falsy. -/
def truthy : Option String → Bool
  | none => false
  | some s => s != ""

/-- The relay-related environment variables read by
`_deliver_to_recipient` and `envelope_from`.  `relayPort` is the parsed
integer value of `SMTP_RELAY_PORT` (`none` when unset or empty, since
`int(os.getenv(...)) if os.getenv(...) else 0` treats those alike). -/
structure Env where
  relayServer : Option String
  relayPort : Option Nat
  relayUsername : Option String
  relayPassword : Option String
  relayStarttls : Option String
deriving DecidableEq

/-- `os.getenv("SMTP_RELAY_STARTTLS", "1") in ("1", "true", "True")`. -/
def starttlsEnabled (e : Env) : Bool :=
  (["1", "true", "True"] : List String).contains (e.relayStarttls.getD "1")

/-- `relay_port or 587`, where `relay_port` is 0 when the variable is
unset or empty. -/
def relayPortUsed (e : Env) : Nat :=
  if e.relayPort.getD 0 = 0 then 587 else e.relayPort.getD 0

/-- `if relay_user and relay_pass: s.login(relay_user, relay_pass)` —
credentials are used exactly when both are truthy. -/
def relayAuth (e : Env) : Option (String × String) :=
  if truthy e.relayUsername && truthy e.relayPassword then
    some (e.relayUsername.getD "", e.relayPassword.getD "")
  else none

/-- One outbound wire interaction.  A `relayAttempt` bundles the whole
relay sequence of `_deliver_to_recipient` (connect, EHLO, optional
STARTTLS, optional login, sendmail); an `mxAttempt` is one
connect/EHLO/sendmail against a resolved MX host. -/
inductive Action where
  | relayAttempt (host : String) (port : Nat) (starttls : Bool)
      (auth : Option (String × String)) (mailFrom : String) (rcpt : String)
      (content : Bytes)
  | mxAttempt (host : String) (port : Nat) (mailFrom : String) (rcpt : String)
      (content : Bytes)
deriving DecidableEq

/-- The recipient named in an outbound interaction. -/
def Action.rcptOf : Action → String
  | .relayAttempt _ _ _ _ _ r _ => r
  | .mxAttempt _ _ _ r _ => r

/-- The exceptions the embedded code can raise: a `dns.resolver` error,
the `IndexError` of `rcpt.split("@", 1)[1]` on an address without `@`,
`RuntimeError(f"No MX hosts found for {domain}")`, the unreachable
generic `RuntimeError("MX delivery failed")`, and an `smtplib` failure
against a particular host. -/
inductive PyExc where
  | resolutionError
  | indexError
  | runtimeNoMx (domain : String)
  | mxDeliveryFailed
  | deliveryError (host : String)
deriving DecidableEq

/-- The external world: `dns.resolver.resolve(domain, "MX")` (`none`
models a raised resolver exception, `some l` the answer records in
resolver-native order as `(preference, exchange)` pairs), success of an
outbound wire interaction, and
`email.message_from_bytes(content).get("From")` (`none` models both a
missing header and a parse failure). -/
structure Oracle where
  resolveMX : String → Option (List (Nat × String))
  netOk : Action → Bool
  parseFrom : Bytes → Option String

/-- Python whitespace for `str.split()` with no separator. -/
def isPyWs (c : Char) : Bool :=
  (c == ' ') || (c == '\t') || (c == '\n') || (c == '\r') ||
    (c == '\x0b') || (c == '\x0c')

/-- Worker for `pySplitWs`: accumulates the current token reversed. -/
def splitWsAux : List Char → List Char → List String
  | [], acc => if acc.isEmpty then [] else [String.mk acc.reverse]
  | c :: cs, acc =>
    if isPyWs c then
      if acc.isEmpty then splitWsAux cs []
      else String.mk acc.reverse :: splitWsAux cs []
    else splitWsAux cs (c :: acc)

/-- Python `s.split()`: split on whitespace runs, discarding empties. -/
def pySplitWs (s : String) : List String := splitWsAux s.toList []

/-- The character set of `.strip("<>\n\r")`. -/
def stripChars : List Char := ['<', '>', '\n', '\r']

/-- Python `s.strip(cs)`: drop characters of `cs` from both ends. -/
def pyStrip (cs : List Char) (s : String) : String :=
  String.mk (((s.toList.dropWhile (cs.contains ·)).reverse.dropWhile
    (cs.contains ·)).reverse)

/-- Python `"@" in s` for the single character `@`. -/
def hasAt (s : String) : Bool := s.toList.contains '@'

/-- `envelope_from` (module-level function): prefer the relay username,
else naively extract an address from the `From` header, else fall back
to `postmaster@localhost`.  `pf` stands for the external e-mail header
parser (`email.message_from_bytes(...).get("From")`). -/
def envelope_from (env : Env) (pf : Bytes → Option String) (content : Bytes) :
    String :=
  if truthy env.relayUsername then env.relayUsername.getD ""
  else
    match pf content with
    | some frm =>
      if frm != "" then
        if hasAt frm then pyStrip stripChars ((pySplitWs frm).getLastD "")
        else frm
      else "postmaster@localhost"
    | none => "postmaster@localhost"

/-- The characters after the first `@`, or `none` when there is no `@`
(where Python's `rcpt.split("@", 1)[1]` raises `IndexError`). -/
def splitAfterAt : List Char → Option (List Char)
  | [] => none
  | c :: cs => if c == '@' then some cs else splitAfterAt cs

/-- `rcpt.split("@", 1)[1]` as a fallible computation. -/
def extractDomain (rcpt : String) : Option String :=
  (splitAfterAt rcpt.toList).map String.mk

/-- Python `str(r.exchange).rstrip(".")`: drop trailing dots. -/
def rstripDots (s : String) : String :=
  String.mk ((s.toList.reverse.dropWhile (· == '.')).reverse)

/-- Code-point comparison of character lists, matching Python's string
`<=` used inside tuple comparison by `sorted`. -/
def charListLe : List Char → List Char → Bool
  | [], _ => true
  | _ :: _, [] => false
  | a :: as, b :: bs =>
    if a.toNat < b.toNat then true
    else if b.toNat < a.toNat then false
    else charListLe as bs

/-- Boolean string comparison (code-point lexicographic). -/
def strLeB (a b : String) : Bool := charListLe a.data b.data

/-- Boolean comparison of `(preference, host)` pairs, matching Python's
tuple comparison in `sorted([(r.preference, host), ...])`. -/
def mxLeB (a b : Nat × String) : Bool :=
  if a.1 < b.1 then true
  else if b.1 < a.1 then false
  else strLeB a.2 b.2

/-- The pair comparison as a relation, for `List.insertionSort`. -/
def mxLe (a b : Nat × String) : Prop := mxLeB a b = true

instance : DecidableRel mxLe := fun a b =>
  inferInstanceAs (Decidable (mxLeB a b = true))

/-- `StoreHandler._get_mx_hosts`: resolve MX records, sort the
`(preference, dot-stripped hostname)` pairs by tuple comparison, and
return the hostnames.  A resolver exception propagates (`.error`). -/
def get_mx_hosts (o : Oracle) (domain : String) :
    Except PyExc (List String) :=
  match o.resolveMX domain with
  | none => .error .resolutionError
  | some answers =>
    let mx := (answers.map (fun pr => (pr.1, rstripDots pr.2))).insertionSort
      mxLe
    .ok (mx.map Prod.snd)

/-- The `for host in mx_hosts` loop of `_deliver_to_recipient`: try each
host on port 25 in order, return at the first success, remember the last
exception, and raise `last_exc or RuntimeError("MX delivery failed")`
after the loop.  Returns the connection attempts made and the outcome. -/
def tryHosts (o : Oracle) (mailFrom rcpt : String) (content : Bytes) :
    List String → Option PyExc → List Action × Except PyExc Unit
  | [], last =>
    ([], .error (match last with | some e => e | none => .mxDeliveryFailed))
  | h :: t, _last =>
    let a := Action.mxAttempt h 25 mailFrom rcpt content
    if o.netOk a then ([a], .ok ())
    else
      let rest := tryHosts o mailFrom rcpt content t (some (.deliveryError h))
      (a :: rest.1, rest.2)

/-- The MX-fallback part of `_deliver_to_recipient`: extract the domain
(raising `IndexError` on an address without `@`), resolve MX hosts
(resolver errors propagate), raise `RuntimeError` on an empty host list,
otherwise run the delivery loop. -/
def mxDeliver (env : Env) (o : Oracle) (rcpt : String) (content : Bytes) :
    List Action × Except PyExc Unit :=
  match extractDomain rcpt with
  | none => ([], .error .indexError)
  | some domain =>
    match get_mx_hosts o domain with
    | .error e => ([], .error e)
    | .ok mxHosts =>
      if mxHosts.isEmpty then ([], .error (.runtimeNoMx domain))
      else tryHosts o (envelope_from env o.parseFrom content) rcpt content
        mxHosts none

/-- The relay interaction `_deliver_to_recipient` performs when
`SMTP_RELAY_SERVER` is truthy: connect to `(host, relay_port or 587)`,
STARTTLS exactly when the flag is enabled, login exactly when both
credentials are truthy, transmit from `envelope_from(content)`. -/
def relayAction (env : Env) (o : Oracle) (rcpt : String) (content : Bytes) :
    Action :=
  .relayAttempt (env.relayServer.getD "") (relayPortUsed env)
    (starttlsEnabled env) (relayAuth env)
    (envelope_from env o.parseFrom content) rcpt content

/-- `StoreHandler._deliver_to_recipient`: attempt the configured relay
first (any failure is swallowed), then fall back to direct MX delivery.
Returns the outbound interactions in order and the outcome. -/
def deliver_to_recipient (env : Env) (o : Oracle) (rcpt : String)
    (content : Bytes) : List Action × Except PyExc Unit :=
  if truthy env.relayServer then
    let a := relayAction env o rcpt content
    if o.netOk a then ([a], .ok ())
    else
      let rest := mxDeliver env o rcpt content
      (a :: rest.1, rest.2)
  else mxDeliver env o rcpt content

/-- The id-probing loop of `handle_DATA` (`while True: ... if not
os.path.exists(path): break; i += 1`), with explicit fuel; `probe used
fuel i` returns the first index from `i` on that is not in `used`,
provided such an index exists within `fuel` steps. -/
def probe (used : List Nat) : Nat → Nat → Nat
  | 0, i => i
  | fuel + 1, i => if i ∈ used then probe used fuel (i + 1) else i

/-- The identifier `handle_DATA` assigns: the first `i ≥ 1` such that
`msg-{i}.eml` does not exist.  `used.length + 1` probes always suffice. -/
def assignId (used : List Nat) : Nat := probe used (used.length + 1) 1

/-- An inbound SMTP envelope as aiosmtpd hands it to `handle_DATA`. -/
structure Envelope where
  mailFrom : String
  rcptTos : List String
  content : Bytes
deriving DecidableEq

/-- The mail store directory: the set of `msg-{id}.eml` files, as
identifier/content pairs. -/
structure Store where
  msgs : List (Nat × Bytes)
deriving DecidableEq

/-- The identifiers currently in use (the existing `msg-{i}.eml`). -/
def usedIds (st : Store) : List Nat := st.msgs.map Prod.fst

/-- What one `handle_DATA` call produces: the SMTP reply string, the
resulting store, and the per-recipient delivery attempt sequences (each
recipient's outbound interactions and final outcome — exceptions are
caught and logged at this boundary, never re-raised). -/
structure DataResult where
  reply : String
  store : Store
  attempts : List (String × (List Action × Except PyExc Unit))

/-- `StoreHandler.handle_DATA`: probe for a free id, write the raw
content (`writeOk` models whether `open`/`write` raises), and on success
run one delivery sequence per recipient, each wrapped in
`try/except Exception`, replying 250; on a write failure reply 451 with
no delivery. -/
def handle_DATA (env : Env) (o : Oracle) (writeOk : Bool) (st : Store)
    (e : Envelope) : DataResult :=
  let i := assignId (usedIds st)
  if writeOk then
    { reply := "250 Message accepted for delivery"
      store := ⟨st.msgs ++ [(i, e.content)]⟩
      attempts := e.rcptTos.map
        (fun r => (r, deliver_to_recipient env o r e.content)) }
  else
    { reply := "451 Could not store message", store := st, attempts := [] }

/-- Observable events of one `handle_DATA` call, in program order: the
storage write (with its outcome), then every outbound interaction. -/
inductive Event where
  | storeWrite (id : Nat) (content : Bytes) (ok : Bool)
  | net (rcpt : String) (a : Action)
deriving DecidableEq

/-- All outbound interactions of the per-recipient delivery loop, in
program order. -/
def deliveryEvents (env : Env) (o : Oracle) (e : Envelope) : List Event :=
  e.rcptTos.flatMap (fun r =>
    (deliver_to_recipient env o r e.content).1.map (Event.net r))

/-- The event trace of one `handle_DATA` call: the write happens first,
and the delivery loop runs only when the write succeeded. -/
def dataTrace (env : Env) (o : Oracle) (writeOk : Bool) (st : Store)
    (e : Envelope) : List Event :=
  Event.storeWrite (assignId (usedIds st)) e.content writeOk ::
    (if writeOk then deliveryEvents env o e else [])

/-- Iterated single-threaded sequential intake: `n` successful
`handle_DATA` calls starting from an empty store. -/
def runSeq (env : Env) (o : Oracle) (e : Envelope) : Nat → Store
  | 0 => ⟨[]⟩
  | n + 1 => (handle_DATA env o true (runSeq env o e n) e).store

/-- The identifiers after `n` sequential accepted messages. -/
def seqIds (env : Env) (o : Oracle) (e : Envelope) (n : Nat) : List Nat :=
  usedIds (runSeq env o e n)

/-- A concrete relay-less environment, for witnesses. -/
def envNoRelay : Env := ⟨none, none, none, none, none⟩

/-- A concrete relay-configured environment, for witnesses. -/
def envRelay : Env :=
  ⟨some "smtp.gmail.com", none, some "relay@x.com", some "pw", none⟩

/-- A resolver answer with equal preferences, in resolver-native order
`zzz` before `aaa`; everything on the wire fails. -/
def oracleTie : Oracle :=
  { resolveMX := fun _ => some [(5, "zzz.example"), (5, "aaa.example")]
    netOk := fun _ => false
    parseFrom := fun _ => none }

/-- The spec's example MX set `[(10, "mx1.example"), (5, "mx2.example")]`,
with every wire interaction succeeding. -/
def oracleMx : Oracle :=
  { resolveMX := fun _ => some [(10, "mx1.example"), (5, "mx2.example")]
    netOk := fun _ => true
    parseFrom := fun _ => none }

/-- An oracle whose resolver always fails; the wire always succeeds. -/
def oracleNoDns : Oracle :=
  { resolveMX := fun _ => none
    netOk := fun _ => true
    parseFrom := fun _ => none }

/-- An oracle that resolves every domain to no MX records. -/
def oracleEmptyMx : Oracle :=
  { resolveMX := fun _ => some []
    netOk := fun _ => true
    parseFrom := fun _ => none }

/-- A concrete two-recipient envelope, for witnesses. -/
def envelopeTwo : Envelope := ⟨"s@x.test", ["a@nomx.test", "b@hasmx.test"], [7, 13]⟩

/-- A concrete single-recipient envelope, for witnesses. -/
def envelopeOne : Envelope := ⟨"s@x.test", ["a@x.test"], [7]⟩

/-- Like `oracleMx` but with every interaction for recipient
`a@nomx.test` failing: used to witness that one recipient's failures do
not leak into another recipient's delivery. -/
def oracleMx2 : Oracle :=
  { resolveMX := fun _ => some [(10, "mx1.example"), (5, "mx2.example")]
    netOk := fun a => if a.rcptOf = "a@nomx.test" then false else true
    parseFrom := fun _ => none }

theorem flatMap_attempts (env : Env) (o : Oracle) (c : Bytes)
    (l : List String) :
    (l.map (fun r => (r, deliver_to_recipient env o r c))).flatMap
      (fun p => p.2.1.map (Event.net p.1)) =
    l.flatMap (fun r => (deliver_to_recipient env o r c).1.map (Event.net r)) := by
  induction l with
  | nil => rfl
  | cons h t ih => simp [List.flatMap_cons, ih]

/-- C1: the DATA reply is a function of the storage outcome alone —
"250 Message accepted for delivery" when the write succeeds, "451 Could
not store message" when it raises — and is unchanged under any change to
the delivery world (relay failures, resolution failures, MX failures). -/
theorem c1_reply_determined_by_storage (env : Env) (o : Oracle)
    (writeOk : Bool) (st : Store) (e : Envelope) :
    ((handle_DATA env o writeOk st e).reply =
      if writeOk then "250 Message accepted for delivery"
      else "451 Could not store message") ∧
    (∀ o' : Oracle, (handle_DATA env o writeOk st e).reply =
      (handle_DATA env o' writeOk st e).reply) := by
  constructor
  · cases writeOk <;> simp [handle_DATA]
  · intro o'
    cases writeOk <;> simp [handle_DATA]

/-- C2: in the event trace of `handle_DATA`, the storage write (with its
outcome) is the very first event, everything after it is an outbound
delivery interaction, delivery interactions are exactly those of the
per-recipient attempt sequences, and a failed write produces no delivery
interaction at all. -/
theorem c2_storage_before_delivery (env : Env) (o : Oracle) (w : Bool)
    (st : Store) (e : Envelope) :
    ((dataTrace env o w st e).head? =
      some (.storeWrite (assignId (usedIds st)) e.content w)) ∧
    (∀ ev ∈ (dataTrace env o w st e).tail, ∃ r a, ev = Event.net r a) ∧
    ((dataTrace env o w st e).tail =
      (handle_DATA env o w st e).attempts.flatMap
        (fun p => p.2.1.map (Event.net p.1))) ∧
    (∀ r a, Event.net r a ∉ dataTrace env o false st e) := by
  refine ⟨rfl, ?_, ?_, ?_⟩
  · intro ev hev
    cases w with
    | false => simp [dataTrace] at hev
    | true =>
      simp only [dataTrace, List.tail_cons, if_pos rfl, deliveryEvents] at hev
      rcases List.mem_flatMap.mp hev with ⟨r, _, hmem⟩
      rcases List.mem_map.mp hmem with ⟨a, _, rfl⟩
      exact ⟨r, a, rfl⟩
  · cases w with
    | false => simp [dataTrace, handle_DATA]
    | true =>
      simp only [dataTrace, List.tail_cons, if_pos rfl, handle_DATA,
        if_pos rfl, deliveryEvents]
      exact (flatMap_attempts env o e.content e.rcptTos).symm
  · intro r a hmem
    simp [dataTrace] at hmem

/-- Witness for C2: on a concrete one-recipient session every event
after the head of the trace is an outbound delivery interaction. -/
theorem c2_storage_before_delivery_witness :
    ∃ r a,
      Event.net "a@x.test"
          (Action.mxAttempt "mx2.example" 25 "postmaster@localhost"
            "a@x.test" [7]) =
        Event.net r a :=
  (c2_storage_before_delivery envNoRelay oracleMx true ⟨[]⟩ envelopeOne).2.1
    (Event.net "a@x.test"
      (Action.mxAttempt "mx2.example" 25 "postmaster@localhost" "a@x.test"
        [7]))
    (by decide)

/-- C3: when the write succeeds, the resulting store is the old store
extended with exactly one new message whose bytes are the envelope's
content verbatim; in particular a byte-identical stored copy exists. -/
theorem c3_stored_bytes_verbatim (env : Env) (o : Oracle) (st : Store)
    (e : Envelope) :
    ((handle_DATA env o true st e).store.msgs =
      st.msgs ++ [(assignId (usedIds st), e.content)]) ∧
    (∃ i, (i, e.content) ∈ (handle_DATA env o true st e).store.msgs) := by
  constructor
  · simp [handle_DATA]
  · exact ⟨assignId (usedIds st), by simp [handle_DATA]⟩

theorem probe_spec (used : List Nat) :
    ∀ fuel i, (∃ j, i ≤ j ∧ j < i + fuel ∧ j ∉ used) →
      i ≤ probe used fuel i ∧ probe used fuel i ∉ used ∧
        ∀ k, i ≤ k → k < probe used fuel i → k ∈ used := by
  intro fuel
  induction fuel with
  | zero =>
    intro i hex
    exact absurd hex (by rintro ⟨j, h1, h2, _⟩; omega)
  | succ f ih =>
    intro i hex
    by_cases hi : i ∈ used
    · rcases hex with ⟨j, hj1, hj2, hj3⟩
      have hji : j ≠ i := fun h => hj3 (h ▸ hi)
      have hrec := ih (i + 1) ⟨j, by omega, by omega, hj3⟩
      have hunf : probe used (f + 1) i = probe used f (i + 1) := by
        simp only [probe, if_pos hi]
      rw [hunf]
      refine ⟨by omega, hrec.2.1, ?_⟩
      intro k hk1 hk2
      rcases Nat.eq_or_lt_of_le hk1 with heq | hlt
      · exact heq ▸ hi
      · exact hrec.2.2 k hlt hk2
    · have hunf : probe used (f + 1) i = i := by
        simp only [probe, if_neg hi]
      rw [hunf]
      exact ⟨Nat.le_refl i, hi, fun k hk1 hk2 => absurd hk2 (by omega)⟩

theorem exists_free_id (used : List Nat) :
    ∃ j, 1 ≤ j ∧ j < 1 + (used.length + 1) ∧ j ∉ used := by
  by_contra h
  push_neg at h
  have hsub : List.range' 1 (used.length + 1) ⊆ used := by
    intro x hx
    rw [List.mem_range'_1] at hx
    exact h x hx.1 (by omega)
  have hnd : (List.range' 1 (used.length + 1)).Nodup := List.nodup_range' 1 _
  have hlen := (List.subperm_of_subset hnd hsub).length_le
  simp [List.length_range'] at hlen

theorem assignId_spec (used : List Nat) :
    1 ≤ assignId used ∧ assignId used ∉ used ∧
      ∀ k, 1 ≤ k → k < assignId used → k ∈ used :=
  probe_spec used (used.length + 1) 1 (exists_free_id used)

theorem assignId_range' (n : Nat) : assignId (List.range' 1 n) = n + 1 := by
  rcases assignId_spec (List.range' 1 n) with ⟨h1, h2, h3⟩
  rw [List.mem_range'_1] at h2
  rcases Nat.lt_or_ge (assignId (List.range' 1 n)) (n + 1) with hlt | hge
  · exact absurd ⟨h1, by omega⟩ h2
  · rcases Nat.eq_or_lt_of_le hge with heq | hlt
    · omega
    · have := h3 (n + 1) (by omega) hlt
      rw [List.mem_range'_1] at this
      omega

theorem seqIds_eq_range' (env : Env) (o : Oracle) (e : Envelope) :
    ∀ n, seqIds env o e n = List.range' 1 n := by
  intro n
  induction n with
  | zero => rfl
  | succ m ih =>
    have hstep : seqIds env o e (m + 1) =
        seqIds env o e m ++ [assignId (seqIds env o e m)] := by
      simp [seqIds, runSeq, handle_DATA, usedIds]
    rw [hstep, ih, assignId_range', List.range'_concat]
    have h1 : 1 + 1 * m = m + 1 := by omega
    rw [h1]

/-- C4: the store assigns the smallest identifier `i ≥ 1` not already in
use, and `n` sequential single-threaded accepted messages starting from
an empty store receive exactly the identifiers `1, 2, ..., n`, which are
strictly increasing (hence distinct). -/
theorem c4_id_assignment (used : List Nat) (env : Env) (o : Oracle)
    (e : Envelope) (n : Nat) :
    (1 ≤ assignId used ∧ assignId used ∉ used ∧
      ∀ k, 1 ≤ k → k < assignId used → k ∈ used) ∧
    (seqIds env o e n = List.range' 1 n ∧
      (seqIds env o e n).Pairwise (· < ·)) := by
  refine ⟨assignId_spec used, seqIds_eq_range' env o e n, ?_⟩
  rw [seqIds_eq_range']
  exact List.pairwise_lt_range' 1 n

/-- Witness for C4 at `used = [1, 2]`: the assigned id 3 is at least 1,
free, and 2 (being below it) is in use. -/
theorem c4_id_assignment_witness :
    1 ≤ assignId [1, 2] ∧ assignId [1, 2] ∉ [1, 2] ∧ (2 : Nat) ∈ [1, 2] :=
  ⟨(c4_id_assignment [1, 2] envNoRelay oracleTie envelopeTwo 0).1.1,
    (c4_id_assignment [1, 2] envNoRelay oracleTie envelopeTwo 0).1.2.1,
    (c4_id_assignment [1, 2] envNoRelay oracleTie envelopeTwo 0).1.2.2 2
      (by decide) (by decide)⟩

/-- C5: with a relay configured, the relay interaction — against
`(host, configured port or default 587)`, upgrading exactly when the
STARTTLS flag is enabled, authenticating exactly when both credentials
are truthy — is always the first outbound interaction; on relay success
nothing else happens (in particular no MX interaction) and on any relay
failure the failure is swallowed and exactly one MX fallback sequence
follows. -/
theorem c5_relay_first (env : Env) (o : Oracle) (r : String) (c : Bytes)
    (h : truthy env.relayServer = true) :
    ((deliver_to_recipient env o r c).1.head? =
      some (relayAction env o r c)) ∧
    (relayAction env o r c = Action.relayAttempt (env.relayServer.getD "")
      (relayPortUsed env) (starttlsEnabled env) (relayAuth env)
      (envelope_from env o.parseFrom c) r c) ∧
    (env.relayPort = none → relayPortUsed env = 587) ∧
    (∀ p, env.relayPort = some p → p ≠ 0 → relayPortUsed env = p) ∧
    ((∃ u pw, relayAuth env = some (u, pw)) ↔
      truthy env.relayUsername = true ∧ truthy env.relayPassword = true) ∧
    (o.netOk (relayAction env o r c) = true →
      deliver_to_recipient env o r c = ([relayAction env o r c], .ok ()) ∧
      ∀ host port mf ct, Action.mxAttempt host port mf r ct ∉
        (deliver_to_recipient env o r c).1) ∧
    (o.netOk (relayAction env o r c) = false →
      (deliver_to_recipient env o r c).1 =
        relayAction env o r c :: (mxDeliver env o r c).1 ∧
      (deliver_to_recipient env o r c).2 = (mxDeliver env o r c).2) := by
  refine ⟨?_, rfl, ?_, ?_, ?_, ?_, ?_⟩
  · by_cases hnet : o.netOk (relayAction env o r c) <;>
      simp [deliver_to_recipient, h, hnet]
  · intro hp; simp [relayPortUsed, hp]
  · intro p hp hp0; simp [relayPortUsed, hp, hp0]
  · constructor
    · rintro ⟨u, pw, hupw⟩
      by_cases hc : truthy env.relayUsername && truthy env.relayPassword
      · simpa using hc
      · simp [relayAuth, hc] at hupw
    · rintro ⟨h1, h2⟩
      refine ⟨env.relayUsername.getD "", env.relayPassword.getD "", ?_⟩
      simp [relayAuth, h1, h2]
  · intro hnet
    constructor
    · simp [deliver_to_recipient, h, hnet]
    · intro host port mf ct hmem
      simp [deliver_to_recipient, h, hnet] at hmem
      simp [relayAction] at hmem
  · intro hnet
    constructor <;> simp [deliver_to_recipient, h, hnet]

/-- Witness for C5: with `envRelay` and a fully-succeeding wire, the
delivery is exactly the single relay interaction. -/
theorem c5_relay_first_witness :
    deliver_to_recipient envRelay oracleMx "a@x.test" [] =
      ([relayAction envRelay oracleMx "a@x.test" []], .ok ()) :=
  ((c5_relay_first envRelay oracleMx "a@x.test" []
    (by decide)).2.2.2.2.2.1 rfl).1

theorem charListLe_total (a b : List Char) :
    charListLe a b = true ∨ charListLe b a = true := by
  induction a generalizing b with
  | nil => left; rfl
  | cons x xs ih =>
    cases b with
    | nil => right; rfl
    | cons y ys =>
      by_cases h1 : x.toNat < y.toNat
      · left; simp [charListLe, h1]
      · by_cases h2 : y.toNat < x.toNat
        · right; simp [charListLe, h2]
        · rcases ih ys with hc | hc
          · left; simp [charListLe, h1, h2, hc]
          · right; simp [charListLe, h1, h2, hc]

theorem charListLe_trans (a b c : List Char) (h1 : charListLe a b = true)
    (h2 : charListLe b c = true) : charListLe a c = true := by
  induction a generalizing b c with
  | nil => rfl
  | cons x xs ih =>
    cases b with
    | nil => simp [charListLe] at h1
    | cons y ys =>
      cases c with
      | nil => simp [charListLe] at h2
      | cons z zs =>
        simp only [charListLe] at h1 h2 ⊢
        split_ifs at h1 h2 ⊢ <;>
          first
            | rfl
            | omega
            | exact ih ys zs h1 h2

instance : IsTotal (Nat × String) mxLe where
  total a b := by
    unfold mxLe mxLeB
    rcases Nat.lt_trichotomy a.1 b.1 with h | h | h
    · left; simp [h]
    · rcases charListLe_total a.2.data b.2.data with hc | hc
      · left; simp [h, strLeB, hc]
      · right; simp [h, strLeB, hc]
    · right; simp [h]

instance : IsTrans (Nat × String) mxLe where
  trans a b c h1 h2 := by
    unfold mxLe mxLeB strLeB at h1 h2 ⊢
    split_ifs at h1 h2 ⊢ <;>
      first
        | rfl
        | omega
        | exact charListLe_trans _ _ _ h1 h2

theorem tryHosts_attempts (o : Oracle) (mf r : String) (c : Bytes) :
    ∀ (hosts : List String) (last : Option PyExc),
      (tryHosts o mf r c hosts last).1 =
        ((hosts.takeWhile
            (fun h => !(o.netOk (Action.mxAttempt h 25 mf r c)))).map
          (fun h => Action.mxAttempt h 25 mf r c)) ++
        ((hosts.dropWhile
            (fun h => !(o.netOk (Action.mxAttempt h 25 mf r c)))).head?.toList.map
          (fun h => Action.mxAttempt h 25 mf r c)) ∧
      ((tryHosts o mf r c hosts last).2 = .ok () ↔
        hosts.any (fun h => o.netOk (Action.mxAttempt h 25 mf r c)) = true) := by
  intro hosts
  induction hosts with
  | nil => intro last; simp [tryHosts]
  | cons h t ih =>
    intro last
    by_cases hn : o.netOk (Action.mxAttempt h 25 mf r c)
    · constructor
      · simp [tryHosts, hn, List.takeWhile_cons, List.dropWhile_cons]
      · simp [tryHosts, hn]
    · constructor
      · simp [tryHosts, hn, List.takeWhile_cons, List.dropWhile_cons,
          (ih (some (.deliveryError h))).1]
      · simp [tryHosts, hn, (ih (some (.deliveryError h))).2]

theorem tryHosts_port25 (o : Oracle) (mf r : String) (c : Bytes) :
    ∀ (hosts : List String) (last : Option PyExc),
      ∀ a ∈ (tryHosts o mf r c hosts last).1,
        ∃ hh, a = Action.mxAttempt hh 25 mf r c := by
  intro hosts
  induction hosts with
  | nil => intro last a ha; simp [tryHosts] at ha
  | cons h t ih =>
    intro last a ha
    by_cases hn : o.netOk (Action.mxAttempt h 25 mf r c)
    · simp [tryHosts, hn] at ha
      exact ⟨h, ha⟩
    · simp [tryHosts, hn] at ha
      rcases ha with rfl | ha
      · exact ⟨h, rfl⟩
      · exact ih (some (.deliveryError h)) a ha

/-- C6 counterexample: for two MX records with equal preference returned
by the resolver as `zzz.example` before `aaa.example`, `_get_mx_hosts`
returns `aaa.example` first — Python's tuple sort breaks preference ties
by hostname, not by resolver-native order as the claim states. -/
theorem c6_counterexample :
    get_mx_hosts oracleTie "tie.test" = .ok ["aaa.example", "zzz.example"] ∧
    (["aaa.example", "zzz.example"] : List String) ≠
      ["zzz.example", "aaa.example"] :=
  ⟨rfl, by decide⟩

/-- C6 amended: the MX resolver returns hostnames sorted by ascending
preference, with preference ties ordered lexicographically by the
(dot-stripped) hostname — not resolver-native order; the delivery engine
then tries the hosts in exactly that order on port 25, stopping at the
first success; in particular for `[(10, mx1), (5, mx2)]` the host
`mx2.example` is attempted before `mx1.example`. -/
theorem c6_mx_ordering (o : Oracle) (domain : String)
    (answers : List (Nat × String)) (mf r : String) (c : Bytes)
    (hosts : List String) (h : o.resolveMX domain = some answers) :
    (∃ mxs : List (Nat × String),
      get_mx_hosts o domain = .ok (mxs.map Prod.snd) ∧
      mxs.Sorted mxLe ∧
      List.Perm mxs (answers.map fun pr => (pr.1, rstripDots pr.2))) ∧
    (∀ p1 h1 p2 h2, mxLe (p1, h1) (p2, h2) ↔
      (p1 < p2 ∨ (p1 = p2 ∧ strLeB h1 h2 = true))) ∧
    ((tryHosts o mf r c hosts none).1 =
      ((hosts.takeWhile
          (fun hh => !(o.netOk (Action.mxAttempt hh 25 mf r c)))).map
        (fun hh => Action.mxAttempt hh 25 mf r c)) ++
      ((hosts.dropWhile
          (fun hh => !(o.netOk (Action.mxAttempt hh 25 mf r c)))).head?.toList.map
        (fun hh => Action.mxAttempt hh 25 mf r c))) ∧
    ((tryHosts o mf r c hosts none).2 = .ok () ↔
      hosts.any (fun hh => o.netOk (Action.mxAttempt hh 25 mf r c)) = true) ∧
    (∀ a ∈ (tryHosts o mf r c hosts none).1,
      ∃ hh, a = Action.mxAttempt hh 25 mf r c) ∧
    (get_mx_hosts oracleMx "example.test" =
      .ok ["mx2.example", "mx1.example"]) := by
  refine ⟨?_, ?_, (tryHosts_attempts o mf r c hosts none).1,
    (tryHosts_attempts o mf r c hosts none).2,
    tryHosts_port25 o mf r c hosts none, rfl⟩
  · refine ⟨(answers.map fun pr => (pr.1, rstripDots pr.2)).insertionSort mxLe,
      ?_, ?_, ?_⟩
    · simp [get_mx_hosts, h]
    · exact List.sorted_insertionSort mxLe _
    · exact List.perm_insertionSort mxLe _
  · intro p1 h1 p2 h2
    by_cases ha : p1 < p2
    · simp [mxLe, mxLeB, ha]
    · by_cases hb : p2 < p1
      · have hne : p1 ≠ p2 := by omega
        simp [mxLe, mxLeB, ha, hb, hne]
      · have heq : p1 = p2 := by omega
        simp [mxLe, mxLeB, ha, hb, heq]

/-- Witness for C6 amended, at the spec's example MX set. -/
theorem c6_mx_ordering_witness :
    get_mx_hosts oracleMx "example.test" =
      .ok ["mx2.example", "mx1.example"] :=
  (c6_mx_ordering oracleMx "example.test"
    [(10, "mx1.example"), (5, "mx2.example")] "f@x.test" "a@x.test" []
    [] rfl).2.2.2.2.2

/-- C7: a recipient reaching the MX fallback with an empty resolved MX
list fails immediately with the `No MX hosts` error and no connection is
attempted; an underlying name-resolution failure likewise surfaces as an
immediate error with no connection attempted; and without a configured
relay the whole delivery is exactly this MX fallback. -/
theorem c7_no_mx_hosts (env : Env) (o : Oracle) (r : String) (c : Bytes)
    (domain : String) (hd : extractDomain r = some domain) :
    (o.resolveMX domain = some [] →
      mxDeliver env o r c = ([], .error (.runtimeNoMx domain))) ∧
    (o.resolveMX domain = none →
      mxDeliver env o r c = ([], .error .resolutionError)) ∧
    ((o.resolveMX domain = some [] ∨ o.resolveMX domain = none) →
      (mxDeliver env o r c).1 = [] ∧
      ∃ exc, (mxDeliver env o r c).2 = .error exc) ∧
    (truthy env.relayServer = false →
      deliver_to_recipient env o r c = mxDeliver env o r c) := by
  have hempty : o.resolveMX domain = some [] →
      mxDeliver env o r c = ([], .error (.runtimeNoMx domain)) := by
    intro hres
    simp [mxDeliver, hd, get_mx_hosts, hres]
  have hfail : o.resolveMX domain = none →
      mxDeliver env o r c = ([], .error .resolutionError) := by
    intro hres
    simp [mxDeliver, hd, get_mx_hosts, hres]
  refine ⟨hempty, hfail, ?_, ?_⟩
  · rintro (hres | hres)
    · rw [hempty hres]
      exact ⟨rfl, .runtimeNoMx domain, rfl⟩
    · rw [hfail hres]
      exact ⟨rfl, .resolutionError, rfl⟩
  · intro ht
    simp [deliver_to_recipient, ht]

/-- Witness for C7 at a domain with no MX records: the failure is
immediate, carries the `No MX hosts` error, and makes no connection. -/
theorem c7_no_mx_hosts_witness :
    mxDeliver envNoRelay oracleEmptyMx "a@nomx.test" [] =
      ([], .error (.runtimeNoMx "nomx.test")) :=
  (c7_no_mx_hosts envNoRelay oracleEmptyMx "a@nomx.test" [] "nomx.test"
    rfl).1 rfl

/-- C8 counterexample: with no relay username and a parsed `From` header
value `"alice"` (present but containing no `@`), `envelope_from` returns
the header value `"alice"` itself — not the default
`"postmaster@localhost"` the claim requires for that case (the code's
`return frm` branch). -/
theorem c8_counterexample :
    envelope_from envNoRelay (fun _ => some "alice") [] = "alice" ∧
    envelope_from envNoRelay (fun _ => some "alice") [] ≠
      "postmaster@localhost" :=
  ⟨rfl, by decide⟩

/-- C8 amended: the envelope-from precedence is — a truthy relay
username is always returned; else, with a present non-empty `From`
header containing `@`, the last whitespace-delimited token stripped of
surrounding `<`, `>`, CR and LF is returned; with a present non-empty
`From` header lacking `@`, the header value itself is returned; only
when the header is absent, empty, or fails to parse is
`"postmaster@localhost"` returned.  The spec's own example
`From: Alice <alice@example.com>` yields `alice@example.com`. -/
theorem c8_envelope_from (env : Env) (pf : Bytes → Option String)
    (c : Bytes) :
    (truthy env.relayUsername = true →
      envelope_from env pf c = env.relayUsername.getD "") ∧
    (truthy env.relayUsername = false → ∀ frm, pf c = some frm →
      frm ≠ "" →
      (hasAt frm = true → envelope_from env pf c =
        pyStrip stripChars ((pySplitWs frm).getLastD "")) ∧
      (hasAt frm = false → envelope_from env pf c = frm)) ∧
    (truthy env.relayUsername = false → pf c = none →
      envelope_from env pf c = "postmaster@localhost") ∧
    (truthy env.relayUsername = false → pf c = some "" →
      envelope_from env pf c = "postmaster@localhost") ∧
    (envelope_from envNoRelay (fun _ => some "Alice <alice@example.com>")
      [] = "alice@example.com") := by
  refine ⟨?_, ?_, ?_, ?_, rfl⟩
  · intro hu
    simp [envelope_from, hu]
  · intro hu frm hpf hne
    constructor
    · intro hat
      simp [envelope_from, hu, hpf, hne, hat]
    · intro hat
      simp [envelope_from, hu, hpf, hne, hat]
  · intro hu hpf
    simp [envelope_from, hu, hpf]
  · intro hu hpf
    simp [envelope_from, hu, hpf]

/-- Witness for C8 amended at the spec's example header. -/
theorem c8_envelope_from_witness :
    envelope_from envNoRelay (fun _ => some "Alice <alice@example.com>")
      ([] : Bytes) =
      pyStrip stripChars
        ((pySplitWs "Alice <alice@example.com>").getLastD "") :=
  ((c8_envelope_from envNoRelay
      (fun _ => some "Alice <alice@example.com>") []).2.1 rfl
    "Alice <alice@example.com>" rfl (by decide)).1 rfl

theorem tryHosts_congr (o o' : Oracle) (mf r : String) (c : Bytes)
    (hnet : ∀ a : Action, a.rcptOf = r → o.netOk a = o'.netOk a) :
    ∀ (hosts : List String) (last : Option PyExc),
      tryHosts o mf r c hosts last = tryHosts o' mf r c hosts last := by
  intro hosts
  induction hosts with
  | nil => intro last; rfl
  | cons h t ih =>
    intro last
    have ha := hnet (Action.mxAttempt h 25 mf r c) rfl
    simp only [tryHosts, ← ha]
    by_cases hn : o.netOk (Action.mxAttempt h 25 mf r c) <;>
      simp [hn, ih (some (.deliveryError h))]

theorem envelope_from_congr (env : Env) (o o' : Oracle) (c : Bytes)
    (hpf : o.parseFrom c = o'.parseFrom c) :
    envelope_from env o.parseFrom c = envelope_from env o'.parseFrom c := by
  unfold envelope_from
  rw [hpf]

theorem mxDeliver_congr (env : Env) (o o' : Oracle) (r : String)
    (c : Bytes)
    (hnet : ∀ a : Action, a.rcptOf = r → o.netOk a = o'.netOk a)
    (hres : ∀ d, extractDomain r = some d → o.resolveMX d = o'.resolveMX d)
    (hpf : o.parseFrom c = o'.parseFrom c) :
    mxDeliver env o r c = mxDeliver env o' r c := by
  cases hd : extractDomain r with
  | none => simp [mxDeliver, hd]
  | some d =>
    have h1 : get_mx_hosts o d = get_mx_hosts o' d := by
      unfold get_mx_hosts
      rw [hres d hd]
    have h2 := envelope_from_congr env o o' c hpf
    simp only [mxDeliver, hd, h1, h2]
    cases hg : get_mx_hosts o' d with
    | error e => simp
    | ok hs =>
      by_cases he : hs.isEmpty
      · simp [he]
      · simp [he, tryHosts_congr o o' (envelope_from env o'.parseFrom c) r c
          hnet hs none]

theorem deliver_congr (env : Env) (o o' : Oracle) (r : String) (c : Bytes)
    (hnet : ∀ a : Action, a.rcptOf = r → o.netOk a = o'.netOk a)
    (hres : ∀ d, extractDomain r = some d → o.resolveMX d = o'.resolveMX d)
    (hpf : o.parseFrom c = o'.parseFrom c) :
    deliver_to_recipient env o r c = deliver_to_recipient env o' r c := by
  unfold deliver_to_recipient
  by_cases ht : truthy env.relayServer
  · have hra : relayAction env o r c = relayAction env o' r c := by
      unfold relayAction
      rw [envelope_from_congr env o o' c hpf]
    simp only [ht, if_true]
    rw [← hra]
    rw [← hnet (relayAction env o r c) rfl]
    by_cases hn : o.netOk (relayAction env o r c) <;>
      simp [hn, mxDeliver_congr env o o' r c hnet hres hpf]
  · simp only [Bool.not_eq_true] at ht
    simp only [ht, Bool.false_eq_true, if_false]
    exact mxDeliver_congr env o o' r c hnet hres hpf

/-- C9: with a successful write, the stored copy is determined before
delivery and is never deleted or mutated by any delivery outcome (the
resulting store does not depend on the delivery world at all); every
recipient in `rcpt_tos` gets exactly one attempt sequence, computed from
that recipient and the content alone; and a recipient's attempt sequence
is unchanged under any change of the world that leaves that recipient's
own interactions, MX resolution and header parse alone — so one
recipient's failures cannot prevent or alter another's attempt. -/
theorem c9_recipient_isolation (env : Env) (o o' : Oracle) (st : Store)
    (e : Envelope) :
    ((handle_DATA env o true st e).store.msgs =
      st.msgs ++ [(assignId (usedIds st), e.content)]) ∧
    ((handle_DATA env o true st e).attempts =
      e.rcptTos.map (fun r => (r, deliver_to_recipient env o r e.content))) ∧
    (∀ r, (∀ a : Action, a.rcptOf = r → o.netOk a = o'.netOk a) →
      (∀ d, extractDomain r = some d → o.resolveMX d = o'.resolveMX d) →
      o.parseFrom e.content = o'.parseFrom e.content →
      deliver_to_recipient env o r e.content =
        deliver_to_recipient env o' r e.content) := by
  refine ⟨by simp [handle_DATA], by simp [handle_DATA], ?_⟩
  intro r hnet hres hpf
  exact deliver_congr env o o' r e.content hnet hres hpf

/-- Witness for C9: recipient `b@hasmx.test`'s delivery is identical
under the fully-succeeding world and under the world in which every
interaction for recipient `a@nomx.test` fails. -/
theorem c9_recipient_isolation_witness :
    deliver_to_recipient envNoRelay oracleMx "b@hasmx.test"
        envelopeTwo.content =
      deliver_to_recipient envNoRelay oracleMx2 "b@hasmx.test"
        envelopeTwo.content :=
  (c9_recipient_isolation envNoRelay oracleMx oracleMx2 ⟨[]⟩
      envelopeTwo).2.2 "b@hasmx.test"
    (fun a ha => by simp [oracleMx, oracleMx2, ha])
    (fun _ _ => rfl) rfl

theorem splitAfterAt_eq_none (cs : List Char)
    (h : cs.contains '@' = false) : splitAfterAt cs = none := by
  induction cs with
  | nil => rfl
  | cons c cs ih =>
    simp only [List.contains_cons, Bool.or_eq_false_iff] at h
    have hc : (c == '@') = false := by
      cases hbe : c == '@'
      · rfl
      · exact absurd h.1 (by rw [eq_of_beq hbe]; simp)
    simp [splitAfterAt, hc, ih h.2]

/-- C10: for a recipient address without `@`, the MX fallback raises at
the domain-extraction step (`IndexError`), both with no relay configured
and after a failed relay attempt; the exception is caught at the
per-recipient boundary, so the session still replies
"250 Message accepted for delivery", the stored copy remains, and every
recipient of the envelope still gets its own attempt sequence. -/
theorem c10_no_at_recipient (env : Env) (o : Oracle) (r : String)
    (c : Bytes) (hr : hasAt r = false) :
    (extractDomain r = none) ∧
    (mxDeliver env o r c = ([], .error .indexError)) ∧
    (truthy env.relayServer = false →
      deliver_to_recipient env o r c = ([], .error .indexError)) ∧
    (truthy env.relayServer = true →
      o.netOk (relayAction env o r c) = false →
      (deliver_to_recipient env o r c).2 = .error .indexError) ∧
    (∀ (st : Store) (e : Envelope),
      (handle_DATA env o true st e).reply =
        "250 Message accepted for delivery" ∧
      (handle_DATA env o true st e).store.msgs =
        st.msgs ++ [(assignId (usedIds st), e.content)] ∧
      (handle_DATA env o true st e).attempts =
        e.rcptTos.map
          (fun r' => (r', deliver_to_recipient env o r' e.content))) := by
  have hdom : extractDomain r = none := by
    unfold extractDomain
    rw [splitAfterAt_eq_none r.toList hr]
    rfl
  have hmx : mxDeliver env o r c = ([], .error .indexError) := by
    simp [mxDeliver, hdom]
  refine ⟨hdom, hmx, ?_, ?_, ?_⟩
  · intro ht
    simp [deliver_to_recipient, ht, hmx]
  · intro ht hn
    simp [deliver_to_recipient, ht, hn, hmx]
  · intro st e
    exact ⟨by simp [handle_DATA], by simp [handle_DATA],
      by simp [handle_DATA]⟩

/-- Witness for C10 at the `@`-less recipient `nodomain` with no relay:
the delivery raises `IndexError` with no outbound interaction, and the
two-recipient envelope still gets a 250 reply with both attempt
sequences present. -/
theorem c10_no_at_recipient_witness :
    deliver_to_recipient envNoRelay oracleMx "nodomain" [] =
      ([], .error .indexError) ∧
    (handle_DATA envNoRelay oracleMx true ⟨[]⟩ envelopeTwo).reply =
      "250 Message accepted for delivery" :=
  ⟨(c10_no_at_recipient envNoRelay oracleMx "nodomain" [] (by decide)).2.2.1
      rfl,
    ((c10_no_at_recipient envNoRelay oracleMx "nodomain" []
      (by decide)).2.2.2.2 ⟨[]⟩ envelopeTwo).1⟩

end SmtpRelay
